import Mathlib

/-!
Verification development for the merchant-transaction summary backend
(src/server.js). The shallow embedding below translates the core pipeline —
date normalization (parseExcelDate), row ingestion (/upload: processedData,
merchants) and summary generation (/generate: filter, per-merchant
accumulation, TOTAL row) — into executable Lean definitions.

Modelling conventions:
* JavaScript numbers are modelled as exact rationals (ℚ); NaN is a separate
  cell constructor. The toFixed(2)/parseFloat round trip, which is exact at
  hundredths, is modelled by the round2 function.
* The host timezone is fixed to UTC, so new Date(y, m, d) and
  Date.UTC(y, m, d) coincide and toISOString performs no offset shift.
* JS objects (spreadsheet rows) are association lists of field name to cell
  value, with insertion-order semantics of object spread preserved; the
  undefined and null cell values are merged into CellVal.null, which is
  sound here because every access in the embedded code treats them alike
  (falsiness tests, parseFloat, Array.includes against string lists).
* Date arithmetic uses the standard civil-from-days / days-from-civil
  algorithms over ℤ, counting days from the Unix epoch 1970-01-01.
-/

set_option allowUnsafeReducibility true in
attribute [semireducible] Rat.add Rat.mul Rat.sub Rat.inv

deriving instance DecidableEq for Except

/-- Integer floor division shorthand used throughout the civil-date code. -/
def idiv (a b : ℤ) : ℤ := Int.fdiv a b

/-- Gregorian leap-year test. -/
def isLeap (y : ℤ) : Bool :=
  Int.emod y 4 = 0 && (Int.emod y 100 ≠ 0 || Int.emod y 400 = 0)

/-- Number of days in month m of year y (m in 1..12). -/
def daysInMonth (y m : ℤ) : ℤ :=
  if m = 1 ∨ m = 3 ∨ m = 5 ∨ m = 7 ∨ m = 8 ∨ m = 10 ∨ m = 12 then 31
  else if m = 2 then (if isLeap y then 29 else 28)
  else 30

/-- Day count since 1970-01-01 of the civil date y-m-d (proleptic Gregorian). -/
def daysFromCivil (y m d : ℤ) : ℤ :=
  let y' := if m ≤ 2 then y - 1 else y
  let era := idiv y' 400
  let yoe := y' - era * 400
  let mp := if 2 < m then m - 3 else m + 9
  let doy := idiv (153 * mp + 2) 5 + d - 1
  let doe := yoe * 365 + idiv yoe 4 - idiv yoe 100 + doy
  era * 146097 + doe - 719468

/-- Civil date (year, month, day) of a day count since 1970-01-01. -/
def civilFromDays (z : ℤ) : ℤ × ℤ × ℤ :=
  let z' := z + 719468
  let era := idiv z' 146097
  let doe := z' - era * 146097
  let yoe := idiv (doe - idiv doe 1460 + idiv doe 36524 - idiv doe 146096) 365
  let y := yoe + era * 400
  let doy := doe - (365 * yoe + idiv yoe 4 - idiv yoe 100)
  let mp := idiv (5 * doy + 2) 153
  let d := doy - idiv (153 * mp + 2) 5 + 1
  let m := if mp < 10 then mp + 3 else mp - 9
  (if m ≤ 2 then y + 1 else y, m, d)

/-- Left-pad the decimal representation of a natural number with zeros. -/
def padNat (w : ℕ) (n : ℕ) : String :=
  let s := toString n
  if s.length < w then String.mk (List.replicate (w - s.length) '0') ++ s else s

/-- Year formatting of Date.prototype.toISOString: four digits for years
0..9999, otherwise the expanded six-digit form with an explicit sign. -/
def formatYear (y : ℤ) : String :=
  if 0 ≤ y ∧ y ≤ 9999 then padNat 4 y.toNat
  else if y < 0 then "-" ++ padNat 6 (-y).toNat
  else "+" ++ padNat 6 y.toNat

/-- The YYYY-MM-DD part of toISOString for the given day count since
1970-01-01. -/
def formatCivilDay (day : ℤ) : String :=
  let c := civilFromDays day
  formatYear c.1 ++ "-" ++ padNat 2 c.2.1.toNat ++ "-" ++ padNat 2 c.2.2.toNat

/-- A spreadsheet cell value as seen by the JS code: null (also standing for
undefined, see the module comment), a finite number, the NaN number, or a
string. -/
inductive CellVal where
  | null : CellVal
  | num : ℚ → CellVal
  | nan : CellVal
  | str : String → CellVal
deriving DecidableEq

/-- JS truthiness of a cell value: null/undefined, NaN, 0 and the empty
string are falsy. -/
def cellTruthy (v : CellVal) : Bool :=
  match v with
  | .null => false
  | .nan => false
  | .num q => q ≠ 0
  | .str s => s ≠ ""

/-- Truncation toward zero, as applied to a JS time value by TimeClip. -/
def truncQ (q : ℚ) : ℤ := if 0 ≤ q then ⌊q⌋ else ⌈q⌉

/-- Model of new Date(ms).toISOString().split('T')[0]: the time value is
range-checked (beyond 8.64e15 ms the Date is invalid and toISOString throws,
which parseExcelDate catches, yielding null), truncated toward zero, and the
containing UTC day is formatted. -/
def jsToISODateOfMs (ms : ℚ) : Option String :=
  if |ms| ≤ 8640000000000000 then
    some (formatCivilDay (Int.fdiv (truncQ ms) 86400000))
  else none

/-- Split a character list on a separator character, exactly as the JS
String.prototype.split with a one-character separator: adjacent separators
and string boundaries produce empty components. -/
def splitChars (sep : Char) : List Char → List (List Char)
  | [] => [[]]
  | c :: t =>
    if c = sep then [] :: splitChars sep t
    else
      match splitChars sep t with
      | h :: r => (c :: h) :: r
      | [] => [[c]]

/-- JS value.split(sep) for a one-character separator. -/
def jsSplit (s : String) (sep : Char) : List String :=
  (splitChars sep s.toList).map String.mk

/-- JS code-unit-wise lexicographic string comparison a less-or-equal b, the
semantics of the relational operators on two strings (identical to code
point order on the basic multilingual plane, which covers every string this
program compares). -/
def charsLe : List Char → List Char → Bool
  | [], _ => true
  | _ :: _, [] => false
  | a :: as, b :: bs => if a = b then charsLe as bs else decide (a < b)

/-- JS string comparison on whole strings. -/
def strLe (a b : String) : Bool := charsLe a.toList b.toList

/-- JS String.prototype.trim: strip leading and trailing whitespace. -/
def jsTrim (s : String) : String :=
  String.mk (((s.toList.dropWhile Char.isWhitespace).reverse.dropWhile Char.isWhitespace).reverse)

/-- Digit-string reader: all characters must be decimal digits. -/
def digitsToNat (s : String) : Option ℕ :=
  if s.length ≠ 0 ∧ s.toList.all Char.isDigit then
    some (s.toList.foldl (fun a c => a * 10 + (c.toNat - 48)) 0)
  else none

/-- Model of the JS date-string parse (new Date(string) / Date.parse) under a
UTC host, restricted to dash-separated numeric year-month-day forms: a
4-digit year and 1-2 digit month and day, valid iff they name a real
proleptic-Gregorian calendar date. This covers every string the embedded
code constructs (it always rearranges split components into Y-M-D with a
dash) as well as the plain ISO dates of the specification's examples; other
host-specific textual formats are outside the claims under verification.
Returns the day count since 1970-01-01. -/
def jsDateOnlyDay (s : String) : Option ℤ :=
  match jsSplit s '-' with
  | [ys, ms, ds] =>
    if ys.length = 4 ∧ (ms.length = 1 ∨ ms.length = 2) ∧
        (ds.length = 1 ∨ ds.length = 2) then
      match digitsToNat ys, digitsToNat ms, digitsToNat ds with
      | some y, some m, some d =>
        if 1 ≤ m ∧ m ≤ 12 ∧ 1 ≤ d ∧ (d : ℤ) ≤ daysInMonth (y : ℤ) (m : ℤ) then
          some (daysFromCivil (y : ℤ) (m : ℤ) (d : ℤ))
        else none
      | _, _, _ => none
    else none
  | _ => none

/-- new Date(string).toISOString().split('T')[0] for the date-only strings
of jsDateOnlyDay. -/
def jsDateToIso (s : String) : Option String :=
  (jsDateOnlyDay s).map formatCivilDay

/-- Truthiness of Date.parse(s): NaN (parse failure) is falsy, and so is the
time value 0 (midnight 1970-01-01 UTC). -/
def dateParseTruthy (s : String) : Bool :=
  match jsDateOnlyDay s with
  | some day => day ≠ 0
  | none => false

/-- The day count of the spreadsheet epoch 1899-12-30 relative to
1970-01-01, as computed by Date.UTC(1899, 11, 30). -/
def excelEpochDay : ℤ := daysFromCivil 1899 12 30

/-- One step of the separator loop in parseExcelDate (src/server.js): split
the string on the separator; on exactly three components try the
day-first rearrangement parts[2]-parts[1]-parts[0] and then the
month-first rearrangement parts[2]-parts[0]-parts[1]. -/
def sepTry (s : String) (sep : Char) : Option String :=
  match jsSplit s sep with
  | [p0, p1, p2] =>
    jsDateToIso (p2 ++ "-" ++ p1 ++ "-" ++ p0) <|>
    jsDateToIso (p2 ++ "-" ++ p0 ++ "-" ++ p1)
  | _ => none

/-- Embedding of parseExcelDate (src/server.js lines 85-130). Falsy inputs
(null/undefined, NaN, 0, the empty string) return null at once. A number is
interpreted as a spreadsheet serial: epoch 1899-12-30 plus (value - 1) days,
formatted by toISOString (out-of-range time values make toISOString throw,
which the surrounding try/catch converts to null). A string is split on
each of the separators in order; day-first and month-first rearrangements
are tried for the first separator producing three components for which one
parses; finally the whole string is handed to the native Date parse. -/
def parseExcelDate (v : CellVal) : Option String :=
  match v with
  | .null => none
  | .nan => none
  | .num q =>
    if q = 0 then none
    else jsToISODateOfMs ((excelEpochDay * 86400000 : ℚ) + (q - 1) * 86400000)
  | .str s =>
    if s = "" then none
    else (sepTry s '-' <|> sepTry s '/' <|> sepTry s '.') <|> jsDateToIso s

/-- A spreadsheet row: field name to cell value, in object-key insertion
order. -/
abbrev Row := List (String × CellVal)

/-- Field access row[k]: the first binding of the key, or null (merging the
undefined of a missing key with null, see the module comment). -/
def getField : Row → String → CellVal
  | [], _ => .null
  | (k', v) :: t, k => if k' = k then v else getField t k

/-- Object-spread update: replace the value of an existing key in place, or
append the new key at the end, exactly as a JS object literal with a spread
followed by the key does. -/
def setKey : Row → String → CellVal → Row
  | [], k, v => [(k, v)]
  | (k', v') :: t, k, v =>
    if k' = k then (k, v) :: t else (k', v') :: setKey t k v

/-- The field names of a row, in order. -/
def rowKeys (r : Row) : List String := r.map Prod.fst

/-- Model of the parseFloat builtin on a string: after optional leading
whitespace and sign, the longest prefix consisting of digits, an optional
decimal point with digits, and an optional exponent part is read; with no
digit at all the result is NaN (none). The Infinity literal, which cannot
be represented in ℚ, is mapped to none; it is unreachable in the claims
under verification. -/
def jsParseFloat (s : String) : Option ℚ :=
  let cs := s.toList.dropWhile Char.isWhitespace
  let signed : ℚ × List Char :=
    match cs with
    | '+' :: t => (1, t)
    | '-' :: t => (-1, t)
    | _ => (1, cs)
  let sign := signed.1
  let cs0 := signed.2
  let intDigits := cs0.takeWhile Char.isDigit
  let cs1 := cs0.dropWhile Char.isDigit
  let fracPair : List Char × List Char :=
    match cs1 with
    | '.' :: t => (t.takeWhile Char.isDigit, t.dropWhile Char.isDigit)
    | _ => ([], cs1)
  let fracDigits := fracPair.1
  let cs2 := fracPair.2
  if intDigits.isEmpty ∧ fracDigits.isEmpty then none
  else
    let natOf : List Char → ℕ := fun l => l.foldl (fun a c => a * 10 + (c.toNat - 48)) 0
    let mantissa : ℚ := (natOf intDigits : ℚ) + (natOf fracDigits : ℚ) / ((10 : ℚ) ^ fracDigits.length)
    let expVal : ℤ :=
      match cs2 with
      | 'e' :: t | 'E' :: t =>
        let esigned : ℤ × List Char :=
          match t with
          | '+' :: u => (1, u)
          | '-' :: u => (-1, u)
          | _ => (1, t)
        let eds := esigned.2.takeWhile Char.isDigit
        if eds.isEmpty then 0 else esigned.1 * (natOf eds : ℤ)
      | _ => 0
    some (sign * mantissa * (10 : ℚ) ^ expVal)

/-- parseFloat applied to a cell value: a finite number round-trips through
its decimal representation unchanged, NaN and null/undefined give NaN
(none), a string is prefix-parsed. -/
def jsParseFloatCell (v : CellVal) : Option ℚ :=
  match v with
  | .num q => some q
  | .nan => none
  | .null => none
  | .str s => jsParseFloat s

/-- The toFixed(2)/parseFloat round trip: round to the nearest hundredth
(ties toward positive infinity, as toFixed picks the larger candidate). -/
def round2 (q : ℚ) : ℚ := (round (q * 100) : ℚ) / 100

/-- One ingested row of the /upload handler (src/server.js lines 207-214):
the raw row spread, then RowIndex (the 1-based sheet row, header offset 2),
then DateOnly from the parsed Date cell (null on failure). -/
def processRow (index : ℕ) (row : Row) : Row :=
  setKey (setKey row "RowIndex" (.num ((index : ℚ) + 2))) "DateOnly"
    (match parseExcelDate (getField row "Date") with
     | some d => .str d
     | none => .null)

/-- The processedData sequence of /upload: every raw row in original order.
The per-row try/catch of the source never fires in the embedding (all
operations are total), so the null-filter keeps every row. -/
def processData (raw : List Row) : List Row :=
  raw.enum.map (fun p => processRow p.1 p.2)

/-- Set-insertion dedup with an accumulator of already-seen values: the model
of iterating a JS Set built from a list, keeping first occurrences in
order. -/
def jsSetDedupAux (seen : List String) : List String → List String
  | [] => []
  | x :: t =>
    if x ∈ seen then jsSetDedupAux seen t
    else x :: jsSetDedupAux (x :: seen) t

/-- Spread of new Set(list): first occurrences, in encounter order. -/
def jsSetDedup (l : List String) : List String := jsSetDedupAux [] l

/-- The merchant extraction of /upload (src/server.js lines 221-225): map
rows to their Merchant Name cell, keep truthy strings whose trim is
non-empty (the original, untrimmed value is kept), deduplicate via a Set,
and sort lexicographically. -/
def merchantsOf (processed : List Row) : List String :=
  List.insertionSort (fun a b => strLe a b = true)
    (jsSetDedup
      ((processed.map (fun r => getField r "Merchant Name")).filterMap
        (fun v =>
          match v with
          | CellVal.str s => if s ≠ "" ∧ jsTrim s ≠ "" then some s else none
          | _ => none)))

/-- The in-memory upload state req.app.locals.fileData that /generate reads
(src/server.js lines 227-233 and 311-315). -/
structure FileData where
  processedData : List Row
  merchants : List String
deriving DecidableEq

/-- The request body of /generate. selectedMerchants is none when absent or
not an array. -/
structure GenArgs where
  selectedMerchants : Option (List String)
  percentage : CellVal
  startDate : String
  endDate : String

/-- The distinct error conditions of the /generate handler, in the order the
source checks them. -/
inductive GenError where
  | noMerchants : GenError
  | invalidPercentage : GenError
  | invalidDate : GenError
  | noData : GenError
  | noMatchingData : GenError
deriving DecidableEq

/-- One row of the Summary sheet. The three monetary fields carry the exact
rational value of their toFixed(2) strings. -/
structure SummaryRow where
  merchant : String
  totalWithdrawal : ℚ
  totalFees : ℚ
  percentAmount : ℚ
  txCount : ℕ
deriving DecidableEq

/-- The successful payload of /generate: the filtered rows (original order)
and the summary rows (per-merchant rows followed by the TOTAL row). -/
structure GenOutput where
  filtered : List Row
  summary : List SummaryRow
deriving DecidableEq

/-- The row predicate of the filteredData computation (src/server.js lines
318-325): DateOnly truthy, within the inclusive lexicographic date range,
and Merchant Name a member of selectedMerchants. The relational comparison
against a non-string DateOnly is modelled as false; only null or a
non-empty date string reach it from ingested data. -/
def generateFilterPred (sel : List String) (startD endD : String) (r : Row) : Bool :=
  cellTruthy (getField r "DateOnly") &&
  (match getField r "DateOnly" with
   | .str d => strLe startD d
   | _ => false) &&
  (match getField r "DateOnly" with
   | .str d => strLe d endD
   | _ => false) &&
  (match getField r "Merchant Name" with
   | .str m => sel.contains m
   | _ => false)

/-- Per-merchant accumulator of the summaryMap. -/
structure Accum where
  withdrawal : ℚ
  fee : ℚ
  percentAmount : ℚ
  count : ℕ
deriving DecidableEq

/-- Map.set-or-update: the first matching key is updated in place, a new key
is appended, preserving the insertion (first-seen) iteration order of a JS
Map. -/
def insertAccum : List (String × Accum) → String → ℚ → ℚ → ℚ → List (String × Accum)
  | [], m, w, f, p => [(m, ⟨w, f, p, 1⟩)]
  | (m', a) :: t, m, w, f, p =>
    if m' = m then
      (m', ⟨a.withdrawal + w, a.fee + f, a.percentAmount + p, a.count + 1⟩) :: t
    else (m', a) :: insertAccum t m w f p

/-- The summaryMap accumulation loop (src/server.js lines 340-362): for each
filtered row, parse the amounts with default 0, compute the percentage
amount, and accumulate per merchant. Filtered rows always carry a string
Merchant Name; other shapes are mapped to the empty key. -/
def accumRows (rows : List Row) (percent : ℚ) : List (String × Accum) :=
  rows.foldl
    (fun acc r =>
      let m := match getField r "Merchant Name" with
        | .str s => s
        | _ => ""
      let w := (jsParseFloatCell (getField r "Withdrawal Amount")).getD 0
      let f := (jsParseFloatCell (getField r "Withdrawal Fees")).getD 0
      insertAccum acc m w f (w * percent / 100))
    []

/-- A per-merchant summary row: the accumulated values rendered with
toFixed(2). -/
def mkSummaryRow (p : String × Accum) : SummaryRow :=
  ⟨p.1, round2 p.2.withdrawal, round2 p.2.fee, round2 p.2.percentAmount, p.2.count⟩

/-- The TOTAL row (src/server.js lines 374-381): each monetary field sums the
per-merchant rows' already-rounded (toFixed) values, reparsed with
parseFloat, and is rendered with toFixed(2) again; the count field sums the
integer counts. -/
def totalsRow (rows : List SummaryRow) : SummaryRow :=
  ⟨"TOTAL",
   round2 ((rows.map (fun r => r.totalWithdrawal)).sum),
   round2 ((rows.map (fun r => r.totalFees)).sum),
   round2 ((rows.map (fun r => r.percentAmount)).sum),
   (rows.map (fun r => r.txCount)).sum⟩

/-- The /generate handler core (src/server.js lines 317-381), with the
validation checks in source order: merchants present and non-empty,
percentage a number in [0, 100], both dates present and Date.parse-truthy,
upload data present, and the filtered set non-empty; then the summary rows
are built and the TOTAL row appended. -/
def generateCore (fd : Option FileData) (args : GenArgs) : Except GenError GenOutput :=
  match args.selectedMerchants with
  | none => .error .noMerchants
  | some sel =>
    if sel.isEmpty then .error .noMerchants
    else
      match jsParseFloatCell args.percentage with
      | none => .error .invalidPercentage
      | some percent =>
        if percent < 0 ∨ 100 < percent then .error .invalidPercentage
        else if args.startDate = "" ∨ args.endDate = "" ∨
            ¬ dateParseTruthy args.startDate ∨ ¬ dateParseTruthy args.endDate then
          .error .invalidDate
        else
          match fd with
          | none => .error .noData
          | some data =>
            let filtered :=
              data.processedData.filter (generateFilterPred sel args.startDate args.endDate)
            if filtered.isEmpty then .error .noMatchingData
            else
              let per := (accumRows filtered percent).map mkSummaryRow
              .ok ⟨filtered, per ++ [totalsRow per]⟩

/-- The /generate handler as a state transformer over the server's
app.locals dataset: the handler only reads the state (the source never
assigns req.app.locals in /generate, builds fresh objects for the export,
and mutates only its local accumulators), so the state is returned
unchanged. -/
def generateHandler (st : Option FileData) (args : GenArgs) :
    Except GenError GenOutput × Option FileData :=
  (generateCore st args, st)

/-- Modelled from the spec: the serial-day formula of the DateNormalizer
contract, the canonical YYYY-MM-DD string of the date obtained as epoch
1899-12-30 plus (n - 1) days. -/
def specSerialDate (n : ℤ) : String :=
  formatCivilDay (daysFromCivil 1899 12 30 + (n - 1))

/-- Concrete two-row dataset used by the witnesses: the scenario of the
specification, serials 45001 and 45002. -/
def exRaw : List Row :=
  [[("Date", CellVal.num 45001), ("Merchant Name", CellVal.str "A"),
    ("Withdrawal Amount", CellVal.num 100), ("Withdrawal Fees", CellVal.num 2)],
   [("Date", CellVal.num 45002), ("Merchant Name", CellVal.str "B"),
    ("Withdrawal Amount", CellVal.num 50), ("Withdrawal Fees", CellVal.num 1)]]

/-- The upload state built from the concrete dataset. -/
def exFileData : FileData :=
  ⟨processData exRaw, merchantsOf (processData exRaw)⟩

/-- Concrete /generate arguments: both merchants, 5 percent, a March 2023
range spanning both rows. -/
def exArgs : GenArgs :=
  ⟨some ["A", "B"], CellVal.num 5, "2023-03-01", "2023-03-31"⟩

/-- The successful output of /generate on the concrete dataset and
arguments. -/
def exOut : GenOutput :=
  ⟨processData exRaw,
   [⟨"A", 100, 2, 5, 1⟩, ⟨"B", 50, 1, 5/2, 1⟩, ⟨"TOTAL", 150, 3, 15/2, 2⟩]⟩

/-- The claims are settled below. Helper lemmas first. -/
theorem append_dash_ne_empty (a b : String) : a ++ "-" ++ b ≠ "" := by
  intro h
  have hl := congrArg String.length h
  simp only [String.length_append] at hl
  have h1 : ("-" : String).length = 1 := rfl
  have h0 : ("" : String).length = 0 := rfl
  omega

/-- The date formatter never yields the empty string. -/
theorem formatCivilDay_ne_empty (day : ℤ) : formatCivilDay day ≠ "" := by
  unfold formatCivilDay
  exact append_dash_ne_empty _ _

/-- jsDateToIso only yields formatter output, never the empty string. -/
theorem jsDateToIso_ne_some_empty (s : String) : jsDateToIso s ≠ some "" := by
  intro he
  unfold jsDateToIso at he
  cases h : jsDateOnlyDay s with
  | none => rw [h] at he; simp at he
  | some d =>
    rw [h] at he
    simp only [Option.map_some'] at he
    exact formatCivilDay_ne_empty d (Option.some.inj he)

/-- jsToISODateOfMs only yields formatter output, never the empty string. -/
theorem jsToISODateOfMs_ne_some_empty (ms : ℚ) : jsToISODateOfMs ms ≠ some "" := by
  unfold jsToISODateOfMs
  split
  · intro he
    exact formatCivilDay_ne_empty _ (Option.some.inj he)
  · simp

/-- Splitting of an orElse chain of options. -/
theorem orElse_eq_some_cases {α : Type} (a b : Option α) (v : α)
    (h : (a <|> b) = some v) : a = some v ∨ b = some v := by
  cases a with
  | none => right; simpa using h
  | some x => left; simpa using h

/-- sepTry only yields jsDateToIso output, never the empty string. -/
theorem sepTry_ne_some_empty (s : String) (sep : Char) : sepTry s sep ≠ some "" := by
  unfold sepTry
  split
  · intro h
    rcases orElse_eq_some_cases _ _ _ h with h' | h'
    · exact jsDateToIso_ne_some_empty _ h'
    · exact jsDateToIso_ne_some_empty _ h'
  · simp

/-- A successful parseExcelDate result is a formatted date, never the empty
string: the null marker is the only representation of an invalid date. -/
theorem parseExcelDate_ne_some_empty (v : CellVal) : parseExcelDate v ≠ some "" := by
  cases v with
  | null => simp [parseExcelDate]
  | nan => simp [parseExcelDate]
  | num q =>
    simp only [parseExcelDate]
    split
    · simp
    · exact jsToISODateOfMs_ne_some_empty _
  | str s =>
    simp only [parseExcelDate]
    split
    · simp
    · intro h
      rcases orElse_eq_some_cases _ _ _ h with h' | h'
      · rcases orElse_eq_some_cases _ _ _ h' with h2 | h2
        · exact sepTry_ne_some_empty _ _ h2
        · rcases orElse_eq_some_cases _ _ _ h2 with h3 | h3
          · exact sepTry_ne_some_empty _ _ h3
          · exact sepTry_ne_some_empty _ _ h3
      · exact jsDateToIso_ne_some_empty _ h'

/-- Reading back the key just written by an object spread. -/
theorem getField_setKey_same (r : Row) (k : String) (v : CellVal) :
    getField (setKey r k v) k = v := by
  induction r with
  | nil => simp [setKey, getField]
  | cons p t ih =>
    obtain ⟨k', v'⟩ := p
    by_cases h : k' = k
    · simp [setKey, h, getField]
    · simp [setKey, h, getField, ih]

/-- Reading any other key is unaffected by an object spread write. -/
theorem getField_setKey_ne (r : Row) (k j : String) (v : CellVal) (h : j ≠ k) :
    getField (setKey r k v) j = getField r j := by
  induction r with
  | nil =>
    simp only [setKey, getField]
    rw [if_neg (fun he => h he.symm)]
  | cons p t ih =>
    obtain ⟨k', v'⟩ := p
    by_cases hk : k' = k
    · subst hk
      simp only [setKey, if_pos rfl, getField]
      rw [if_neg (fun he => h he.symm), if_neg (fun he => h he.symm)]
    · by_cases hj : k' = j
      · subst hj
        simp [setKey, hk, getField]
      · simp only [setKey, if_neg hk, getField, if_neg hj]
        exact ih

/-- A spread adds at most the written key to the key set. -/
theorem mem_rowKeys_setKey (r : Row) (k j : String) (v : CellVal)
    (h : j ∈ rowKeys (setKey r k v)) : j ∈ rowKeys r ∨ j = k := by
  induction r with
  | nil =>
    simp only [setKey, rowKeys, List.map_cons, List.map_nil, List.mem_cons,
      List.not_mem_nil, or_false] at h
    right; exact h
  | cons p t ih =>
    obtain ⟨k', v'⟩ := p
    by_cases hk : k' = k
    · have hset : setKey ((k', v') :: t) k v = (k, v) :: t := by simp [setKey, hk]
      rw [hset] at h
      simp only [rowKeys, List.map_cons, List.mem_cons] at h
      rcases h with h | h
      · right; exact h
      · left
        simp only [rowKeys, List.map_cons, List.mem_cons]
        right; exact h
    · have hset : setKey ((k', v') :: t) k v = (k', v') :: setKey t k v := by
        simp [setKey, hk]
      rw [hset] at h
      simp only [rowKeys, List.map_cons, List.mem_cons] at h
      rcases h with h | h
      · left
        simp only [rowKeys, List.map_cons, List.mem_cons]
        left; exact h
      · rcases ih h with h' | h'
        · left
          simp only [rowKeys, List.map_cons, List.mem_cons]
          right
          simpa [rowKeys] using h'
        · right; exact h'

/-- The JS string order is total. -/
theorem charsLe_total : ∀ as bs : List Char, charsLe as bs = true ∨ charsLe bs as = true := by
  intro as
  induction as with
  | nil => intro bs; left; rfl
  | cons a as ih =>
    intro bs
    cases bs with
    | nil => right; rfl
    | cons b bs =>
      simp only [charsLe]
      by_cases hab : a = b
      · subst hab
        simp only [if_pos rfl]
        exact ih bs
      · have hba : ¬ b = a := fun he => hab he.symm
        rw [if_neg hab, if_neg hba]
        rcases lt_trichotomy a b with h | h | h
        · left; exact decide_eq_true h
        · exact absurd h hab
        · right; exact decide_eq_true h

/-- The JS string order is transitive. -/
theorem charsLe_trans : ∀ as bs cs : List Char,
    charsLe as bs = true → charsLe bs cs = true → charsLe as cs = true := by
  intro as
  induction as with
  | nil => intro bs cs _ _; rfl
  | cons a as ih =>
    intro bs cs h1 h2
    cases bs with
    | nil => simp [charsLe] at h1
    | cons b bs =>
      cases cs with
      | nil => simp [charsLe] at h2
      | cons c cs =>
        simp only [charsLe] at h1 h2 ⊢
        by_cases hab : a = b
        · subst hab
          rw [if_pos rfl] at h1
          by_cases hac : a = c
          · subst hac
            rw [if_pos rfl] at h2 ⊢
            exact ih bs cs h1 h2
          · rw [if_neg hac] at h2 ⊢
            exact h2
        · rw [if_neg hab] at h1
          have h1' : a < b := of_decide_eq_true h1
          by_cases hbc : b = c
          · subst hbc
            by_cases hac : a = b
            · exact absurd hac hab
            · rw [if_neg hac]
              exact decide_eq_true h1'
          · rw [if_neg hbc] at h2
            have h2' : b < c := of_decide_eq_true h2
            have hac' : a < c := lt_trans h1' h2'
            by_cases hac : a = c
            · exact absurd (hac ▸ hac') (lt_irrefl c)
            · rw [if_neg hac]
              exact decide_eq_true hac'

instance : IsTotal String (fun a b => strLe a b = true) :=
  ⟨fun a b => charsLe_total a.toList b.toList⟩

instance : IsTrans String (fun a b => strLe a b = true) :=
  ⟨fun a b c => charsLe_trans a.toList b.toList c.toList⟩

/-- Membership in the Set-dedup with a seen accumulator. -/
theorem mem_jsSetDedupAux : ∀ (l seen : List String) (a : String),
    a ∈ jsSetDedupAux seen l ↔ a ∈ l ∧ a ∉ seen := by
  intro l
  induction l with
  | nil => intro seen a; simp [jsSetDedupAux]
  | cons x t ih =>
    intro seen a
    simp only [jsSetDedupAux]
    by_cases hx : x ∈ seen
    · rw [if_pos hx, ih]
      constructor
      · rintro ⟨ht, hs⟩
        exact ⟨List.mem_cons_of_mem x ht, hs⟩
      · rintro ⟨hm, hs⟩
        rcases List.mem_cons.mp hm with he | ht
        · exact absurd (he ▸ hx) hs
        · exact ⟨ht, hs⟩
    · rw [if_neg hx]
      constructor
      · intro hm
        rcases List.mem_cons.mp hm with he | ht
        · exact ⟨he ▸ List.mem_cons_self x t, he ▸ hx⟩
        · rcases (ih (x :: seen) a).mp ht with ⟨h1, h2⟩
          refine ⟨List.mem_cons_of_mem x h1, fun hs => h2 (List.mem_cons_of_mem x hs)⟩
      · rintro ⟨hm, hs⟩
        rcases List.mem_cons.mp hm with he | ht
        · exact he ▸ List.mem_cons_self x _
        · by_cases hax : a = x
          · exact hax ▸ List.mem_cons_self x _
          · exact List.mem_cons_of_mem x ((ih (x :: seen) a).mpr
              ⟨ht, fun hmem => (List.mem_cons.mp hmem).elim hax hs⟩)

/-- The Set-dedup output has no duplicates. -/
theorem nodup_jsSetDedupAux : ∀ (l seen : List String), (jsSetDedupAux seen l).Nodup := by
  intro l
  induction l with
  | nil => intro seen; simp [jsSetDedupAux]
  | cons x t ih =>
    intro seen
    simp only [jsSetDedupAux]
    by_cases hx : x ∈ seen
    · rw [if_pos hx]; exact ih seen
    · rw [if_neg hx]
      refine List.nodup_cons.mpr ⟨?_, ih (x :: seen)⟩
      intro hmem
      exact ((mem_jsSetDedupAux t (x :: seen) x).mp hmem).2 (List.mem_cons_self x seen)

/-- Membership in the Set-dedup of a list. -/
theorem mem_jsSetDedup (l : List String) (a : String) : a ∈ jsSetDedup l ↔ a ∈ l := by
  unfold jsSetDedup
  rw [mem_jsSetDedupAux]
  simp

/-- toFixed rounding is idempotent: hundredth-multiples round to themselves. -/
theorem round2_idem (q : ℚ) : round2 (round2 q) = round2 q := by
  unfold round2
  rw [div_mul_cancel₀ _ (by norm_num : (100 : ℚ) ≠ 0), round_intCast]

/-- Truncation toward zero of an integer is the integer. -/
theorem truncQ_intCast (z : ℤ) : truncQ (z : ℚ) = z := by
  unfold truncQ
  split
  · exact Int.floor_intCast z
  · exact Int.ceil_intCast z

/-- C1 counterexample: the claim asserts that the serial formula maps serial
1 to 1899-12-31, but epoch 1899-12-30 plus (1 - 1) days is 1899-12-30, and
that is what the code returns; moreover serial 0, being falsy, yields null
rather than any date at all. -/
theorem c1_counterexample :
    parseExcelDate (CellVal.num 1) = some "1899-12-30" ∧
    ("1899-12-30" : String) ≠ "1899-12-31" ∧
    parseExcelDate (CellVal.num 0) = none := by
  refine ⟨by decide, by decide, by decide⟩

/-- C1 (amended): for every non-zero integer serial n whose time value is
within the JS Date range, parseExcelDate returns the canonical YYYY-MM-DD
string of epoch 1899-12-30 plus (n - 1) days; under this formula serial 1
maps to 1899-12-30 and serial 2 to 1899-12-31. -/
theorem c1_serial_formula (n : ℤ) (hn : n ≠ 0) (hrange : |n - 25570| ≤ 100000000) :
    parseExcelDate (CellVal.num (n : ℚ)) = some (specSerialDate n) := by
  have hE : excelEpochDay = -25569 := by decide
  have hq : ((n : ℚ)) ≠ 0 := Int.cast_ne_zero.mpr hn
  simp only [parseExcelDate, if_neg hq]
  have hms : ((excelEpochDay : ℚ) * 86400000 + ((n : ℚ) - 1) * 86400000) =
      (((n - 25570 : ℤ) : ℚ) * 86400000) := by
    rw [hE]
    push_cast
    ring
  rw [hms]
  have habs : |(((n - 25570 : ℤ) : ℚ) * 86400000)| ≤ 8640000000000000 := by
    rw [abs_mul]
    have h1 : |(((n - 25570 : ℤ)) : ℚ)| = ((|n - 25570| : ℤ) : ℚ) := by
      push_cast
      rfl
    rw [h1]
    have h2 : ((|n - 25570| : ℤ) : ℚ) ≤ 100000000 := by
      exact_mod_cast hrange
    have h3 : |(86400000 : ℚ)| = 86400000 := by norm_num
    rw [h3]
    nlinarith [abs_nonneg (n - 25570)]
  have hcast : (((n - 25570 : ℤ) : ℚ) * 86400000) = (((n - 25570) * 86400000 : ℤ) : ℚ) := by
    push_cast
    ring
  simp only [jsToISODateOfMs, if_pos habs]
  rw [hcast, truncQ_intCast,
    Int.mul_fdiv_cancel _ (by norm_num : (86400000 : ℤ) ≠ 0)]
  unfold specSerialDate
  have harg : n - 25570 = daysFromCivil 1899 12 30 + (n - 1) := by
    have hD : daysFromCivil 1899 12 30 = -25569 := by decide
    omega
  rw [← harg]

/-- C1 witness: the amended statement applied at the concrete serial 2,
whose formula date is 1899-12-31. -/
theorem c1_serial_formula_witness :
    ((2 : ℤ) ≠ 0 ∧ |(2 : ℤ) - 25570| ≤ 100000000) ∧
    parseExcelDate (CellVal.num ((2 : ℤ) : ℚ)) = some (specSerialDate 2) :=
  ⟨⟨by decide, by decide⟩, c1_serial_formula 2 (by decide) (by decide)⟩

/-- C10: the numeric input 0 is falsy, so parseExcelDate returns the null
marker instead of the serial-formula date 1899-12-29; the other falsy cell
values (empty string, null/undefined, NaN) are likewise treated as absent. -/
theorem c10_falsy_zero :
    parseExcelDate (CellVal.num 0) = none ∧
    specSerialDate 0 = "1899-12-29" ∧
    parseExcelDate (CellVal.str "") = none ∧
    parseExcelDate CellVal.null = none ∧
    parseExcelDate CellVal.nan = none := by
  refine ⟨by decide, by decide, by decide, by decide, by decide⟩

/-- C6: parseExcelDate is a total function into an option type (the
embedding of the source's catch-all try/catch): the empty string, an
unparseable string, null/undefined and NaN all yield the null marker, and a
successful parse is never the empty string, so null is the one Invalid
representation. -/
theorem c6_normalize_total :
    parseExcelDate (CellVal.str "") = none ∧
    parseExcelDate (CellVal.str "not a date") = none ∧
    parseExcelDate CellVal.null = none ∧
    parseExcelDate CellVal.nan = none ∧
    ∀ v, parseExcelDate v ≠ some "" := by
  refine ⟨by decide, by decide, by decide, by decide, parseExcelDate_ne_some_empty⟩

/-- C6 witness: the totality clause applied at a concrete cell value. -/
theorem c6_normalize_total_witness : parseExcelDate (CellVal.num 1) ≠ some "" :=
  c6_normalize_total.2.2.2.2 (CellVal.num 1)

/-- C4: for a textual input splitting into three components on any of the
separators dash, slash or dot (the other two separators not producing a
successful three-component parse, which is exactly when the source's
separator loop reaches the one under consideration and then falls through
to the generic parse), parseExcelDate tries the day-first rearrangement,
then the month-first rearrangement, then generic parsing of the full
string, in that order, returning the first successful parse; concretely
31-01-2024 normalizes day-first to 2024-01-31, the ISO string 2024-01-31 is
returned unchanged (via the generic fallback), and for the ambiguous
03-04-2024 — likewise 03/04/2024 — the day-first reading (April 3rd) wins,
as it does for the dotted 05.03.2024 (March 5th). -/
theorem c4_text_parse_order :
    (∀ s a b c : String, jsSplit s '-' = [a, b, c] →
      sepTry s '/' = none → sepTry s '.' = none →
      parseExcelDate (CellVal.str s) =
        ((jsDateToIso (c ++ "-" ++ b ++ "-" ++ a) <|>
          jsDateToIso (c ++ "-" ++ a ++ "-" ++ b)) <|> jsDateToIso s)) ∧
    (∀ s a b c : String, jsSplit s '/' = [a, b, c] →
      sepTry s '-' = none → sepTry s '.' = none →
      parseExcelDate (CellVal.str s) =
        ((jsDateToIso (c ++ "-" ++ b ++ "-" ++ a) <|>
          jsDateToIso (c ++ "-" ++ a ++ "-" ++ b)) <|> jsDateToIso s)) ∧
    (∀ s a b c : String, jsSplit s '.' = [a, b, c] →
      sepTry s '-' = none → sepTry s '/' = none →
      parseExcelDate (CellVal.str s) =
        ((jsDateToIso (c ++ "-" ++ b ++ "-" ++ a) <|>
          jsDateToIso (c ++ "-" ++ a ++ "-" ++ b)) <|> jsDateToIso s)) ∧
    parseExcelDate (CellVal.str "31-01-2024") = some "2024-01-31" ∧
    parseExcelDate (CellVal.str "2024-01-31") = some "2024-01-31" ∧
    parseExcelDate (CellVal.str "03-04-2024") = some "2024-04-03" ∧
    parseExcelDate (CellVal.str "03/04/2024") = some "2024-04-03" ∧
    parseExcelDate (CellVal.str "05.03.2024") = some "2024-03-05" := by
  refine ⟨?_, ?_, ?_, by decide, by decide, by decide, by decide, by decide⟩
  · intro s a b c h h1 h2
    have hs : s ≠ "" := by
      intro he
      subst he
      simp [jsSplit, splitChars] at h
    have hdash : sepTry s '-' =
        (jsDateToIso (c ++ "-" ++ b ++ "-" ++ a) <|>
          jsDateToIso (c ++ "-" ++ a ++ "-" ++ b)) := by
      unfold sepTry
      rw [h]
    simp only [parseExcelDate, if_neg hs, hdash, h1, h2, Option.none_orElse,
      Option.orElse_none]
  · intro s a b c h h1 h2
    have hs : s ≠ "" := by
      intro he
      subst he
      simp [jsSplit, splitChars] at h
    have hslash : sepTry s '/' =
        (jsDateToIso (c ++ "-" ++ b ++ "-" ++ a) <|>
          jsDateToIso (c ++ "-" ++ a ++ "-" ++ b)) := by
      unfold sepTry
      rw [h]
    simp only [parseExcelDate, if_neg hs, hslash, h1, h2, Option.none_orElse,
      Option.orElse_none]
  · intro s a b c h h1 h2
    have hs : s ≠ "" := by
      intro he
      subst he
      simp [jsSplit, splitChars] at h
    have hdot : sepTry s '.' =
        (jsDateToIso (c ++ "-" ++ b ++ "-" ++ a) <|>
          jsDateToIso (c ++ "-" ++ a ++ "-" ++ b)) := by
      unfold sepTry
      rw [h]
    simp only [parseExcelDate, if_neg hs, hdot, h1, h2, Option.none_orElse,
      Option.orElse_none]

/-- C4 witness: the order statement applied at the concrete dash-separated
input 31-01-2024 and at the concrete slash-separated input 03/04/2024,
together with the concrete discharge of their hypotheses. -/
theorem c4_text_parse_order_witness :
    ((jsSplit "31-01-2024" '-' = ["31", "01", "2024"] ∧
      sepTry "31-01-2024" '/' = none ∧ sepTry "31-01-2024" '.' = none) ∧
    parseExcelDate (CellVal.str "31-01-2024") =
      ((jsDateToIso ("2024" ++ "-" ++ "01" ++ "-" ++ "31") <|>
        jsDateToIso ("2024" ++ "-" ++ "31" ++ "-" ++ "01")) <|>
        jsDateToIso "31-01-2024")) ∧
    ((jsSplit "03/04/2024" '/' = ["03", "04", "2024"] ∧
      sepTry "03/04/2024" '-' = none ∧ sepTry "03/04/2024" '.' = none) ∧
    parseExcelDate (CellVal.str "03/04/2024") =
      ((jsDateToIso ("2024" ++ "-" ++ "04" ++ "-" ++ "03") <|>
        jsDateToIso ("2024" ++ "-" ++ "03" ++ "-" ++ "04")) <|>
        jsDateToIso "03/04/2024")) := by
  have h : jsSplit "31-01-2024" '-' = ["31", "01", "2024"] := by decide
  have h1 : sepTry "31-01-2024" '/' = none := by decide
  have h2 : sepTry "31-01-2024" '.' = none := by decide
  have g : jsSplit "03/04/2024" '/' = ["03", "04", "2024"] := by decide
  have g1 : sepTry "03/04/2024" '-' = none := by decide
  have g2 : sepTry "03/04/2024" '.' = none := by decide
  exact ⟨⟨⟨h, h1, h2⟩, c4_text_parse_order.1 _ _ _ _ h h1 h2⟩,
    ⟨⟨g, g1, g2⟩, c4_text_parse_order.2.1 _ _ _ _ g g1 g2⟩⟩

/-- Inversion of a successful /generate run: the state held data, the
arguments passed every validation, the filtered rows are the dataset rows
passing the filter predicate, they are non-empty, and the summary is the
per-merchant rows followed by the TOTAL row. -/
theorem generateCore_ok_inv (st : Option FileData) (args : GenArgs) (out : GenOutput)
    (h : generateCore st args = Except.ok out) :
    ∃ fd sel percent, st = some fd ∧
      args.selectedMerchants = some sel ∧
      jsParseFloatCell args.percentage = some percent ∧
      out.filtered =
        fd.processedData.filter (generateFilterPred sel args.startDate args.endDate) ∧
      out.summary = (accumRows out.filtered percent).map mkSummaryRow ++
        [totalsRow ((accumRows out.filtered percent).map mkSummaryRow)] ∧
      out.filtered ≠ [] := by
  simp only [generateCore] at h
  split at h
  · exact absurd h (by simp)
  next sel hsel =>
    split at h
    · exact absurd h (by simp)
    next hempty =>
      split at h
      · exact absurd h (by simp)
      next percent hp =>
        split at h
        · exact absurd h (by simp)
        next hpr =>
          split at h
          · exact absurd h (by simp)
          next hdate =>
            split at h
            · exact absurd h (by simp)
            next x data =>
              split at h
              · exact absurd h (by simp)
              next hfil =>
                injection h with h
                subst h
                rw [List.isEmpty_iff] at hfil
                refine ⟨data, sel, percent, rfl, hsel, hp, rfl, rfl, ?_⟩
                intro hnil
                exact hfil hnil

/-- C3: in every successful summary, the last row is the TOTAL row; each of
its monetary fields is the toFixed-rounded sum of the corresponding
per-merchant fields, which are themselves already toFixed-rounded values
(round2 fixed points), and its count is the plain sum of the per-merchant
counts — the TOTAL row is computed from the rounded per-merchant rows, not
from the raw accumulators. -/
theorem c3_total_row (st : Option FileData) (args : GenArgs) (out : GenOutput)
    (hok : (generateHandler st args).1 = Except.ok out) :
    ∃ per t, out.summary = per ++ [t] ∧
      t.merchant = "TOTAL" ∧
      t.totalWithdrawal = round2 ((per.map (fun r => r.totalWithdrawal)).sum) ∧
      t.totalFees = round2 ((per.map (fun r => r.totalFees)).sum) ∧
      t.percentAmount = round2 ((per.map (fun r => r.percentAmount)).sum) ∧
      t.txCount = (per.map (fun r => r.txCount)).sum ∧
      ∀ r ∈ per, round2 r.totalWithdrawal = r.totalWithdrawal ∧
        round2 r.totalFees = r.totalFees ∧
        round2 r.percentAmount = r.percentAmount := by
  rcases generateCore_ok_inv st args out hok with
    ⟨fd, sel, percent, _, _, _, _, hsum, _⟩
  refine ⟨(accumRows out.filtered percent).map mkSummaryRow,
    totalsRow ((accumRows out.filtered percent).map mkSummaryRow),
    hsum, rfl, rfl, rfl, rfl, rfl, ?_⟩
  intro r hr
  rcases List.mem_map.mp hr with ⟨p, _, rfl⟩
  exact ⟨round2_idem _, round2_idem _, round2_idem _⟩

/-- C3 witness: the TOTAL-row statement applied to the concrete run. -/
theorem c3_total_row_witness :
    (generateHandler (some exFileData) exArgs).1 = Except.ok exOut ∧
    (∃ per t, exOut.summary = per ++ [t] ∧
      t.merchant = "TOTAL" ∧
      t.totalWithdrawal = round2 ((per.map (fun r => r.totalWithdrawal)).sum) ∧
      t.totalFees = round2 ((per.map (fun r => r.totalFees)).sum) ∧
      t.percentAmount = round2 ((per.map (fun r => r.percentAmount)).sum) ∧
      t.txCount = (per.map (fun r => r.txCount)).sum ∧
      ∀ r ∈ per, round2 r.totalWithdrawal = r.totalWithdrawal ∧
        round2 r.totalFees = r.totalFees ∧
        round2 r.percentAmount = r.percentAmount) := by
  have hok : (generateHandler (some exFileData) exArgs).1 = Except.ok exOut := by decide
  exact ⟨hok, c3_total_row (some exFileData) exArgs exOut hok⟩

/-- Every ingested record's DateOnly field is either the null marker or a
non-empty date string. -/
theorem processData_dateOnly_shape (raw : List Row) (r : Row)
    (hr : r ∈ processData raw) :
    getField r "DateOnly" = CellVal.null ∨
      ∃ d, getField r "DateOnly" = CellVal.str d ∧ d ≠ "" := by
  unfold processData at hr
  rcases List.mem_map.mp hr with ⟨p, _, rfl⟩
  unfold processRow
  rw [getField_setKey_same]
  cases hpd : parseExcelDate (getField p.2 "Date") with
  | none => left; rfl
  | some d =>
    right
    refine ⟨d, rfl, fun he => parseExcelDate_ne_some_empty (getField p.2 "Date") ?_⟩
    rw [hpd, he]

/-- C2: a record of the ingested dataset is in FilteredRows of a successful
/generate run iff it is a dataset record whose DateOnly is non-null, lies in
the inclusive lexicographic range from startDate to endDate (so a record
with DateOnly equal to endDate is included), and whose merchant name is one
of the selected merchants. -/
theorem c2_filter_membership (raw : List Row) (fd : FileData) (args : GenArgs)
    (sel : List String) (out : GenOutput) (r : Row)
    (hfd : fd.processedData = processData raw)
    (hsel : args.selectedMerchants = some sel)
    (hok : (generateHandler (some fd) args).1 = Except.ok out) :
    r ∈ out.filtered ↔
      r ∈ processData raw ∧
      getField r "DateOnly" ≠ CellVal.null ∧
      (∃ d, getField r "DateOnly" = CellVal.str d ∧
        strLe args.startDate d = true ∧ strLe d args.endDate = true) ∧
      (∃ m, getField r "Merchant Name" = CellVal.str m ∧ m ∈ sel) := by
  have hcore : generateCore (some fd) args = Except.ok out := hok
  rcases generateCore_ok_inv _ _ _ hcore with
    ⟨fd', sel', percent, hfd', hsel', hp, hfil, hsum, hne⟩
  obtain rfl : fd' = fd := by
    injection hfd' with h'
    exact h'.symm
  obtain rfl : sel' = sel := by
    rw [hsel] at hsel'
    injection hsel' with h'
    exact h'.symm
  rw [hfil, hfd, List.mem_filter]
  constructor
  · rintro ⟨hmem, hpred⟩
    refine ⟨hmem, ?_⟩
    unfold generateFilterPred at hpred
    simp only [Bool.and_eq_true] at hpred
    obtain ⟨⟨⟨ht, hge⟩, hle⟩, hm⟩ := hpred
    rcases processData_dateOnly_shape raw r hmem with hnull | ⟨d, hd, hdne⟩
    · rw [hnull] at ht
      exact absurd ht (by simp [cellTruthy])
    · refine ⟨?_, ⟨d, hd, ?_, ?_⟩, ?_⟩
      · rw [hd]
        intro hcon
        cases hcon
      · rw [hd] at hge
        exact hge
      · rw [hd] at hle
        exact hle
      · cases hmv : getField r "Merchant Name" with
        | str m =>
          rw [hmv] at hm
          exact ⟨m, rfl, by simpa using hm⟩
        | null => rw [hmv] at hm; simp at hm
        | nan => rw [hmv] at hm; simp at hm
        | num q => rw [hmv] at hm; simp at hm
  · rintro ⟨hmem, hnn, ⟨d, hd, hge, hle⟩, ⟨m, hmv, hmsel⟩⟩
    refine ⟨hmem, ?_⟩
    have hdne : d ≠ "" := by
      rcases processData_dateOnly_shape raw r hmem with hnull | ⟨d', hd', hdne'⟩
      · rw [hd] at hnull
        simp at hnull
      · rw [hd] at hd'
        injection hd' with h'
        simpa [h'] using hdne'
    unfold generateFilterPred
    simp only [Bool.and_eq_true]
    refine ⟨⟨⟨?_, ?_⟩, ?_⟩, ?_⟩
    · rw [hd]
      simp [cellTruthy, hdne]
    · rw [hd]
      exact hge
    · rw [hd]
      exact hle
    · rw [hmv]
      simpa using hmsel

/-- C2 witness: membership applied to the first ingested record of the
concrete run; the record is in FilteredRows and satisfies the
characterization. -/
theorem c2_filter_membership_witness :
    (exFileData.processedData = processData exRaw ∧
      exArgs.selectedMerchants = some ["A", "B"] ∧
      (generateHandler (some exFileData) exArgs).1 = Except.ok exOut) ∧
    ((processData exRaw).headI ∈ exOut.filtered ↔
      (processData exRaw).headI ∈ processData exRaw ∧
      getField (processData exRaw).headI "DateOnly" ≠ CellVal.null ∧
      (∃ d, getField (processData exRaw).headI "DateOnly" = CellVal.str d ∧
        strLe exArgs.startDate d = true ∧ strLe d exArgs.endDate = true) ∧
      (∃ m, getField (processData exRaw).headI "Merchant Name" = CellVal.str m ∧
        m ∈ ["A", "B"])) := by
  have hok : (generateHandler (some exFileData) exArgs).1 = Except.ok exOut := by decide
  exact ⟨⟨rfl, rfl, hok⟩,
    c2_filter_membership exRaw exFileData exArgs ["A", "B"] exOut _ rfl rfl hok⟩

/-- C7: whenever the arguments pass validation and the dataset filter
produces no matching record, /generate fails with the NO_MATCHING_DATA
condition (the distinct not-found signal) and no output rows are produced. -/
theorem c7_empty_filter_no_matching_data (fd : FileData) (args : GenArgs)
    (sel : List String) (percent : ℚ)
    (hsel : args.selectedMerchants = some sel)
    (hne : sel.isEmpty = false)
    (hp : jsParseFloatCell args.percentage = some percent)
    (hpr : ¬ (percent < 0 ∨ 100 < percent))
    (hdate : ¬ (args.startDate = "" ∨ args.endDate = "" ∨
      ¬ dateParseTruthy args.startDate = true ∨ ¬ dateParseTruthy args.endDate = true))
    (hfil : fd.processedData.filter
      (generateFilterPred sel args.startDate args.endDate) = []) :
    (generateHandler (some fd) args).1 = Except.error GenError.noMatchingData := by
  show generateCore (some fd) args = Except.error GenError.noMatchingData
  simp only [generateCore, hsel, hp, hfil]
  rw [if_neg (by simp [hne]), if_neg hpr, if_neg hdate]
  rfl

/-- C7 witness: a concrete run selecting a merchant absent from the dataset
reaches the NO_MATCHING_DATA error. -/
theorem c7_empty_filter_no_matching_data_witness :
    ((⟨some ["C"], CellVal.num 5, "2023-03-01", "2023-03-31"⟩ :
        GenArgs).selectedMerchants = some ["C"] ∧
      (["C"] : List String).isEmpty = false ∧
      jsParseFloatCell (CellVal.num 5) = some 5 ∧
      exFileData.processedData.filter
        (generateFilterPred ["C"] "2023-03-01" "2023-03-31") = []) ∧
    (generateHandler (some exFileData)
        ⟨some ["C"], CellVal.num 5, "2023-03-01", "2023-03-31"⟩).1 =
      Except.error GenError.noMatchingData := by
  refine ⟨⟨rfl, rfl, rfl, by decide⟩, ?_⟩
  exact c7_empty_filter_no_matching_data exFileData _ ["C"] 5 rfl rfl rfl
    (by norm_num) (by decide) (by decide)

/-- C8: /generate is pure and read-only: it leaves the server state
unchanged, a second call with identical arguments against the resulting
state returns an identical result, and the result depends on the upload
state only through the dataset (the handler never writes app.locals, and
no dataset record is mutated). -/
theorem c8_pure_readonly (st : Option FileData) (args : GenArgs) :
    (generateHandler st args).2 = st ∧
    (generateHandler ((generateHandler st args).2) args).1 =
      (generateHandler st args).1 ∧
    ∀ fd fd' : FileData, fd.processedData = fd'.processedData →
      (generateHandler (some fd) args).1 = (generateHandler (some fd') args).1 := by
  refine ⟨rfl, rfl, ?_⟩
  intro fd fd' h
  show generateCore (some fd) args = generateCore (some fd') args
  simp only [generateCore]
  rw [h]

/-- C8 witness: the state-preservation, repeat-call and dataset-dependence
clauses at a concrete state whose merchants field differs but whose dataset
agrees. -/
theorem c8_pure_readonly_witness :
    (exFileData.processedData = (⟨processData exRaw, []⟩ : FileData).processedData) ∧
    (generateHandler (some exFileData) exArgs).1 =
      (generateHandler (some (⟨processData exRaw, []⟩ : FileData)) exArgs).1 :=
  ⟨rfl, (c8_pure_readonly (some exFileData) exArgs).2.2 exFileData
    ⟨processData exRaw, []⟩ rfl⟩

/-- C5 counterexample: a merchant cell holding the untrimmed string makes
the merchant set keep the untrimmed value: it is not the set of trimmed
values the claim describes. -/
theorem c5_counterexample :
    merchantsOf (processData [[("Merchant Name", CellVal.str " A")]]) = [" A"] ∧
    jsTrim " A" = "A" ∧
    merchantsOf (processData [[("Merchant Name", CellVal.str " A")]]) ≠ ["A"] := by
  refine ⟨by decide, by decide, by decide⟩

/-- C5 (amended): the merchant set of an ingested dataset is sorted
ascending in code-point order, has no duplicates, and contains exactly the
original (untrimmed) string values of the merchant field whose trimmed form
is non-empty — deduplicated by exact string value, not by trimmed value. -/
theorem c5_merchants_characterization (raw : List Row) :
    List.Sorted (fun a b => strLe a b = true) (merchantsOf (processData raw)) ∧
    (merchantsOf (processData raw)).Nodup ∧
    ∀ m, m ∈ merchantsOf (processData raw) ↔
      ∃ r ∈ processData raw,
        getField r "Merchant Name" = CellVal.str m ∧ jsTrim m ≠ "" := by
  refine ⟨List.sorted_insertionSort _ _, ?_, ?_⟩
  · exact ((List.perm_insertionSort _ _).nodup_iff).mpr (nodup_jsSetDedupAux _ _)
  · intro m
    rw [merchantsOf, List.Perm.mem_iff (List.perm_insertionSort _ _), mem_jsSetDedup,
      List.mem_filterMap]
    constructor
    · rintro ⟨v, hv, hf⟩
      rcases List.mem_map.mp hv with ⟨r, hr, rfl⟩
      cases hgv : getField r "Merchant Name" with
      | null => rw [hgv] at hf; simp at hf
      | nan => rw [hgv] at hf; simp at hf
      | num q => rw [hgv] at hf; simp at hf
      | str s =>
        rw [hgv] at hf
        by_cases hc : s ≠ "" ∧ jsTrim s ≠ ""
        · have hsm : some s = some m := by simpa [hc] using hf
          injection hsm with hsm
          subst hsm
          exact ⟨r, hr, hgv, hc.2⟩
        · simp [hc] at hf
    · rintro ⟨r, hr, hg, htrim⟩
      refine ⟨getField r "Merchant Name", List.mem_map_of_mem _ hr, ?_⟩
      rw [hg]
      have hm : m ≠ "" := fun he => htrim (by rw [he]; rfl)
      simp [hm, htrim]

/-- C9 counterexample: ingestion adds a third field, the bookkeeping
RowIndex, which is neither a raw field of the row, nor DateOnly, nor the
derived percentage field of the requested rate. -/
theorem c9_counterexample :
    rowKeys (processRow 0
      [("Date", CellVal.num 45001), ("Merchant Name", CellVal.str "A")]) =
      ["Date", "Merchant Name", "RowIndex", "DateOnly"] ∧
    ("RowIndex" : String) ∉
      rowKeys [("Date", CellVal.num 45001), ("Merchant Name", CellVal.str "A")] ∧
    ("RowIndex" : String) ≠ "DateOnly" ∧
    ("RowIndex" : String) ≠ "5% Amount" := by
  refine ⟨by decide, by decide, by decide, by decide⟩

/-- C9 (amended): every ingested record carries the raw row's fields with
unchanged values, and the only added fields are DateOnly and the
bookkeeping RowIndex (stripped again before export); no percentage field is
added to records by this implementation. -/
theorem c9_record_fields (i : ℕ) (row : Row) :
    (∀ k, k ≠ "RowIndex" → k ≠ "DateOnly" →
      getField (processRow i row) k = getField row k) ∧
    (∀ j, j ∈ rowKeys (processRow i row) →
      j ∈ rowKeys row ∨ j = "RowIndex" ∨ j = "DateOnly") := by
  constructor
  · intro k h1 h2
    unfold processRow
    rw [getField_setKey_ne _ _ _ _ h2, getField_setKey_ne _ _ _ _ h1]
  · intro j hj
    unfold processRow at hj
    rcases mem_rowKeys_setKey _ _ _ _ hj with hj' | hj'
    · rcases mem_rowKeys_setKey _ _ _ _ hj' with hj'' | hj''
      · left; exact hj''
      · right; left; exact hj''
    · right; right; exact hj'

/-- C9 witness: the frame clause applied to the Date field of a concrete
row. -/
theorem c9_record_fields_witness :
    (("Date" : String) ≠ "RowIndex" ∧ ("Date" : String) ≠ "DateOnly") ∧
    getField (processRow 0 [("Date", CellVal.num 45001)]) "Date" =
      getField [("Date", CellVal.num 45001)] "Date" :=
  ⟨⟨by decide, by decide⟩,
    (c9_record_fields 0 [("Date", CellVal.num 45001)]).1 "Date"
      (by decide) (by decide)⟩
